import Mathlib

/-!
# Receive-diagnostics pipeline of `simple_rx.c`

A shallow embedding of `examples/simple_rx.c` (DW3000 driver for the ATMega328P):
the accumulator sample decoder `read_single_cir_sample`, the window computation and
telemetry of `log_cir_window` / `dump_cir_window`, and one iteration of the receive
loop of `simple_rx`.

Machine integers are natural numbers or integers with the reduction modulo `2^w`
written out where the C code converts to a fixed-width type.  Calls into the driver
and `printf` / `UART_puts` are recorded in an event trace.  Loops consume fuel: a
result of `none` means the loop was still running when the fuel ran out.
-/

namespace SimpleRx

/-! ## Constants defined in `simple_rx.c` -/

def CIR_PRE_SAMPLES : Nat := 10

def CIR_POST_SAMPLES : Nat := 50

def ACCUMULATOR_MAX_SAMPLES : Nat := 1024

/-! ## Fixed-width conversions -/

/-- Conversion of an integer to `uint16_t` (reduction modulo `2^16`). -/
def u16 (x : Int) : Nat := (x % 65536).toNat

/-- Conversion of an integer to `uint32_t` (reduction modulo `2^32`). -/
def u32 (x : Int) : Nat := (x % 4294967296).toNat

/-- Value of a 32-bit pattern stored in an `int32_t` (two's complement). -/
def toInt32 (u : Nat) : Int :=
  if u % 4294967296 < 2147483648 then ((u % 4294967296 : Nat) : Int)
  else ((u % 4294967296 : Nat) : Int) - 4294967296

/-! ## Data -/

/-- The local array `uint8_t accum_data[7]` filled by `dwt_readaccdata`. -/
structure AccumData where
  b0 : Fin 256
  b1 : Fin 256
  b2 : Fin 256
  b3 : Fin 256
  b4 : Fin 256
  b5 : Fin 256
  b6 : Fin 256
  deriving DecidableEq, Repr

/-- The part of `dwt_rxdiag_t` that `simple_rx.c` reads. -/
structure dwt_rxdiag_t where
  ipatovFpIndex : Nat
  deriving DecidableEq, Repr

/-- Lines written by the `printf` calls of `simple_rx.c`.  The last field of a `cir`
line stands for the text that `%.3f` prints for the magnitude. -/
inductive Line where
  | cirMeta (fp start stop : Nat)
  | frameBegin
  | cir (idx : Nat) (re im : Int) (mag : Nat)
  | frameEnd
  deriving DecidableEq, Repr

/-- Registers that `simple_rx` accesses. -/
inductive Reg where
  | SYS_STATUS_ID
  | RX_FINFO_ID
  deriving DecidableEq, Repr

/-- Receiver start modes used by `simple_rx`. -/
inductive RxMode where
  | DWT_START_RX_IMMEDIATE
  deriving DecidableEq, Repr

/-- Observable actions: driver calls and output, in program order. -/
inductive Event where
  | readaccdata (len idx : Nat)
  | printf (l : Line)
  | puts (s : String)
  | rxenable (mode : RxMode)
  | read32bitreg (reg : Reg)
  | write32bitreg (reg : Reg) (val : Nat)
  | readrxdata (len off : Nat)
  | readdiagnostics
  deriving DecidableEq, Repr

/-- Constants that `simple_rx.c` takes from the driver headers. -/
structure Config where
  FRAME_LEN_MAX : Nat
  FCS_LEN : Nat
  SYS_STATUS_RXFCG_BIT_MASK : Nat
  SYS_STATUS_ALL_RX_ERR : Nat
  RX_FINFO_RXFLEN_BIT_MASK : Nat
  deriving DecidableEq, Repr

/-- What the radio returns during one iteration of the receive loop. -/
structure Hw where
  /-- value returned by the `k`-th read of `SYS_STATUS` after arming -/
  sys_status : Nat → Nat
  /-- value of `RX_FINFO` -/
  rx_finfo : Nat
  /-- byte of the receive memory at an offset -/
  rx_data : Nat → Nat
  /-- diagnostics snapshot filled by `dwt_readdiagnostics` -/
  diag : dwt_rxdiag_t
  /-- accumulator memory: the record `dwt_readaccdata` returns for a sample index -/
  acc : Nat → AccumData

/-- State of the locals of `simple_rx` at the end of one loop iteration, with the trace
of the iteration. -/
structure IterResult where
  rx_buffer : List Nat
  status_reg : Nat
  trace : List Event
  deriving DecidableEq, Repr

/-! ## `read_single_cir_sample` -/

/-- Lines 21-43.  The accumulators `r` and `j` hold the 32-bit pattern of the
`int32_t` variables; the pair returned is what is stored through `re` and `im`. -/
def read_single_cir_sample (dwt_readaccdata : Nat → AccumData) (sampleIndex : Nat) :
    Int × Int :=
  let accum_data := dwt_readaccdata sampleIndex
  let r : Nat := accum_data.b1.val
  let r := r ||| (accum_data.b2.val <<< 8)
  let r := r ||| ((accum_data.b3.val &&& 0x03) <<< 16)
  let j : Nat := accum_data.b4.val
  let j := j ||| (accum_data.b5.val <<< 8)
  let j := j ||| ((accum_data.b6.val &&& 0x03) <<< 16)
  let r := if r &&& 0x020000 ≠ 0 then r ||| 0xFFFC0000 else r
  let j := if j &&& 0x020000 ≠ 0 then j ||| 0xFFFC0000 else j
  (toInt32 r, toInt32 j)

/-! ## `log_cir_window` and `dump_cir_window` -/

/-- Lines 47-58 of `log_cir_window`: the first-path index after the range check, and
the two window bounds, each held in a `uint16_t`. -/
def log_cir_window_bounds (diag : dwt_rxdiag_t) : Nat × Nat × Nat :=
  let fpi := u16 diag.ipatovFpIndex
  let fpi := if fpi ≥ ACCUMULATOR_MAX_SAMPLES then 0 else fpi
  let start_idx :=
    if fpi > CIR_PRE_SAMPLES then u16 ((fpi : Int) - (CIR_PRE_SAMPLES : Int)) else 0
  let end_idx := u16 ((fpi : Int) + (CIR_POST_SAMPLES : Int))
  let end_idx :=
    if end_idx ≥ ACCUMULATOR_MAX_SAMPLES then ACCUMULATOR_MAX_SAMPLES - 1 else end_idx
  (fpi, start_idx, end_idx)

/-- The `for` loop of `dump_cir_window` (lines 70-75) from the test of `idx <= endIdx`
on: the events of the remaining iterations.  Each iteration reads one accumulator
record (the `dwt_readaccdata` call inside `read_single_cir_sample`) and prints one
`CIR` line; `idx++` is a `uint16_t` increment.  The parameter `magnitude` stands for the
`float` computation of line 73 and its `%.3f` rendering, which are not modelled. -/
def dump_cir_loop (acc : Nat → AccumData) (magnitude : Int → Int → Nat) (endIdx : Nat) :
    Nat → Nat → Option (List Event)
  | 0, _ => none
  | fuel + 1, idx =>
    if idx ≤ endIdx then
      let s := read_single_cir_sample acc idx
      (dump_cir_loop acc magnitude endIdx fuel (u16 ((idx : Int) + 1))).map fun rest =>
        Event.readaccdata 7 idx
          :: Event.printf (Line.cir idx s.1 s.2 (magnitude s.1 s.2)) :: rest
    else some []

/-- Lines 64-77. -/
def dump_cir_window (acc : Nat → AccumData) (magnitude : Int → Int → Nat) (fuel : Nat)
    (startIdx endIdx : Nat) : Option (List Event) :=
  (dump_cir_loop acc magnitude endIdx fuel startIdx).map fun body =>
    Event.printf Line.frameBegin :: (body ++ [Event.printf Line.frameEnd])

/-- Lines 45-62. -/
def log_cir_window (acc : Nat → AccumData) (magnitude : Int → Int → Nat) (fuel : Nat)
    (diag : dwt_rxdiag_t) : Option (List Event) :=
  let w := log_cir_window_bounds diag
  (dump_cir_window acc magnitude fuel w.2.1 w.2.2).map fun rest =>
    Event.printf (Line.cirMeta w.1 w.2.1 w.2.2) :: rest

/-! ## The receive loop of `simple_rx` -/

/-- Modelled from the spec: the driver function `dwt_readrxdata` is not part of
`simple_rx.c`; it "reads N bytes of payload from hardware receive memory at a byte
offset" into the buffer.  Bytes requested beyond the end of the buffer are not
represented in the list. -/
def dwt_readrxdata (rx_data : Nat → Nat) (buffer : List Nat) (length rxBufferOffset : Nat) :
    List Nat :=
  buffer.mapIdx fun i b => if i < length then rx_data (rxBufferOffset + i) else b

/-- The polling loop of line 139, from the `k`-th read of `SYS_STATUS` on: the value
left in `status_reg` and the register reads made. -/
def poll_status (cfg : Config) (hw : Hw) : Nat → Nat → Option (Nat × List Event)
  | 0, _ => none
  | fuel + 1, k =>
    let status_reg := u32 (hw.sys_status k)
    if status_reg &&& (cfg.SYS_STATUS_RXFCG_BIT_MASK ||| cfg.SYS_STATUS_ALL_RX_ERR) ≠ 0 then
      some (status_reg, [Event.read32bitreg Reg.SYS_STATUS_ID])
    else
      (poll_status cfg hw fuel (k + 1)).map fun p =>
        (p.1, Event.read32bitreg Reg.SYS_STATUS_ID :: p.2)

/-- The value stored in `frame_len` at line 145. -/
def frame_len_of (cfg : Config) (hw : Hw) : Nat :=
  u16 (u32 hw.rx_finfo &&& cfg.RX_FINFO_RXFLEN_BIT_MASK)

/-- One iteration of the `while (1)` loop of `simple_rx` (lines 131-164). -/
def simple_rx_iteration (cfg : Config) (magnitude : Int → Int → Nat) (hw : Hw)
    (fuel : Nat) : Option IterResult :=
  let rx_buffer := List.replicate cfg.FRAME_LEN_MAX 0
  match poll_status cfg hw fuel 0 with
  | none => none
  | some (status_reg, polls) =>
    if status_reg &&& cfg.SYS_STATUS_RXFCG_BIT_MASK ≠ 0 then
      let frame_len := frame_len_of cfg hw
      let copy : List Nat × List Event :=
        if frame_len ≤ cfg.FRAME_LEN_MAX then
          let n := u16 ((frame_len : Int) - (cfg.FCS_LEN : Int))
          (dwt_readrxdata hw.rx_data rx_buffer n 0, [Event.readrxdata n 0])
        else (rx_buffer, [])
      match log_cir_window hw.acc magnitude fuel hw.diag with
      | none => none
      | some report =>
        some
          { rx_buffer := copy.1
            status_reg := status_reg
            trace :=
              Event.rxenable RxMode.DWT_START_RX_IMMEDIATE :: polls
                ++ Event.read32bitreg Reg.RX_FINFO_ID :: copy.2
                ++ Event.readdiagnostics :: report
                ++ [Event.write32bitreg Reg.SYS_STATUS_ID cfg.SYS_STATUS_RXFCG_BIT_MASK,
                    Event.puts "FRAME RECEIVED\r\n"] }
    else
      some
        { rx_buffer := rx_buffer
          status_reg := status_reg
          trace :=
            Event.rxenable RxMode.DWT_START_RX_IMMEDIATE :: polls
              ++ [Event.write32bitreg Reg.SYS_STATUS_ID cfg.SYS_STATUS_ALL_RX_ERR] }

/-! ## Projections of a trace -/

/-- The lines printed with `printf`, in order. -/
def lines : List Event → List Line
  | [] => []
  | Event.printf l :: tr => l :: lines tr
  | _ :: tr => lines tr

/-- The sample indices passed to `dwt_readaccdata`, in order. -/
def accReads : List Event → List Nat
  | [] => []
  | Event.readaccdata _ idx :: tr => idx :: accReads tr
  | _ :: tr => accReads tr

/-- The byte counts passed to `dwt_readrxdata`, in order. -/
def rxDataLens : List Event → List Nat
  | [] => []
  | Event.readrxdata len _ :: tr => len :: rxDataLens tr
  | _ :: tr => rxDataLens tr

/-- The register writes, in order. -/
def regWrites : List Event → List (Reg × Nat)
  | [] => []
  | Event.write32bitreg reg val :: tr => (reg, val) :: regWrites tr
  | _ :: tr => regWrites tr

/-- Number of `dwt_readdiagnostics` calls. -/
def diagReads (tr : List Event) : Nat := tr.count Event.readdiagnostics

/-- The strings written with `UART_puts`, in order. -/
def rawOutputs : List Event → List String
  | [] => []
  | Event.puts s :: tr => s :: rawOutputs tr
  | _ :: tr => rawOutputs tr

/-- The register reads made by `k + 1` passes through the polling loop. -/
def pollReads (k : Nat) : List Event :=
  List.replicate (k + 1) (Event.read32bitreg Reg.SYS_STATUS_ID)

/-! ## Sample data -/

/-- An accumulator record with all bytes zero. -/
def zeroRecord : AccumData := ⟨0, 0, 0, 0, 0, 0, 0⟩

/-- An accumulator memory holding zero records only. -/
def zeroAcc : Nat → AccumData := fun _ => zeroRecord

/-- A stand-in for the magnitude text: the integer square root of `re^2 + im^2`. -/
def sqrtMag (re im : Int) : Nat := Nat.sqrt (re.natAbs ^ 2 + im.natAbs ^ 2)

/-- Sample header values, those of the DW3000 driver: 127-byte frame buffer, 2-byte FCS,
frame-good bit 14, the six receive-error bits, 10-bit frame length field. -/
def dw3000Config : Config :=
  { FRAME_LEN_MAX := 127
    FCS_LEN := 2
    SYS_STATUS_RXFCG_BIT_MASK := 0x4000
    SYS_STATUS_ALL_RX_ERR := 0x24059000
    RX_FINFO_RXFLEN_BIT_MASK := 0x3FF }

/-- A radio whose first three status reads show nothing and whose fourth shows a frame
check error; the frame information register is zero. -/
def errorHw : Hw :=
  { sys_status := fun k => if k < 3 then 0 else 0x8000
    rx_finfo := 0
    rx_data := fun _ => 0
    diag := ⟨10⟩
    acc := zeroAcc }

/-- A radio that reports a good frame at the first status read, with a frame length of
`len` in `RX_FINFO`, receive memory filled with `0xA5` and first-path index 10. -/
def goodHw (len : Nat) : Hw :=
  { sys_status := fun _ => 0x4000
    rx_finfo := len
    rx_data := fun _ => 0xA5
    diag := ⟨10⟩
    acc := zeroAcc }

/-! ## Specification-side definitions -/

/-- Sign extension as the specification words it: subtract `2^18` when bit 17 is set. -/
def sx (raw : Nat) : Int := if raw.testBit 17 then (raw : Int) - 262144 else (raw : Int)

/-- The `CIR` line that `dump_cir_window` prints for sample index `i`. -/
def cirLine (acc : Nat → AccumData) (magnitude : Int → Int → Nat) (i : Nat) : Line :=
  Line.cir i (read_single_cir_sample acc i).1 (read_single_cir_sample acc i).2
    (magnitude (read_single_cir_sample acc i).1 (read_single_cir_sample acc i).2)

/-- The events of `n` consecutive passes through the body of the `for` loop of
`dump_cir_window`, the first at sample index `i`. -/
def cirEvents (acc : Nat → AccumData) (magnitude : Int → Int → Nat) : Nat → Nat → List Event
  | _, 0 => []
  | i, n + 1 =>
    Event.readaccdata 7 i :: Event.printf (cirLine acc magnitude i)
      :: cirEvents acc magnitude (i + 1) n

/-- The three ways the receive loop treats a value read from `SYS_STATUS`. -/
inductive StatusClass where
  | pending
  | frame_good
  | frame_error
  deriving DecidableEq, Repr

/-- The tests of lines 139 and 142 on a status value: the polling loop goes on while
the mask test of line 139 gives zero; once it does not, line 142 picks the branch. -/
def classify_status (cfg : Config) (status_reg : Nat) : StatusClass :=
  if status_reg &&& (cfg.SYS_STATUS_RXFCG_BIT_MASK ||| cfg.SYS_STATUS_ALL_RX_ERR) ≠ 0 then
    if status_reg &&& cfg.SYS_STATUS_RXFCG_BIT_MASK ≠ 0 then StatusClass.frame_good
    else StatusClass.frame_error
  else StatusClass.pending

/-- The payload copy of lines 146-149: the buffer afterwards and the driver call made,
if any. -/
def payload_copy (cfg : Config) (hw : Hw) : List Nat × List Event :=
  if frame_len_of cfg hw ≤ cfg.FRAME_LEN_MAX then
    (dwt_readrxdata hw.rx_data (List.replicate cfg.FRAME_LEN_MAX 0)
        (u16 ((frame_len_of cfg hw : Int) - (cfg.FCS_LEN : Int))) 0,
      [Event.readrxdata (u16 ((frame_len_of cfg hw : Int) - (cfg.FCS_LEN : Int))) 0])
  else (List.replicate cfg.FRAME_LEN_MAX 0, [])

/-- The trace of a returning `log_cir_window` call for a snapshot. -/
def reportEvents (acc : Nat → AccumData) (magnitude : Int → Int → Nat) (diag : dwt_rxdiag_t) :
    List Event :=
  Event.printf (Line.cirMeta (log_cir_window_bounds diag).1 (log_cir_window_bounds diag).2.1
      (log_cir_window_bounds diag).2.2)
    :: Event.printf Line.frameBegin
    :: (cirEvents acc magnitude (log_cir_window_bounds diag).2.1
          ((log_cir_window_bounds diag).2.2 + 1 - (log_cir_window_bounds diag).2.1)
        ++ [Event.printf Line.frameEnd])

/-- The group of lines of one report: `CIR_META`, `FRAME_BEGIN`, the `CIR` lines of the
window in ascending order, `FRAME_END`. -/
def reportLines (acc : Nat → AccumData) (magnitude : Int → Int → Nat) (diag : dwt_rxdiag_t) :
    List Line :=
  Line.cirMeta (log_cir_window_bounds diag).1 (log_cir_window_bounds diag).2.1
      (log_cir_window_bounds diag).2.2
    :: Line.frameBegin
    :: ((List.range' (log_cir_window_bounds diag).2.1
          ((log_cir_window_bounds diag).2.2 + 1 - (log_cir_window_bounds diag).2.1)).map
          (cirLine acc magnitude)
        ++ [Line.frameEnd])

/-- The raw 18-bit field held in three bytes of an accumulator record. -/
def raw18 (lo mid hi : Fin 256) : Nat := lo.val + 256 * mid.val + 65536 * (hi.val % 4)

/-- Little-endian packing of `v mod 2^18` into three bytes. -/
def pack18 (v : Int) : Fin 256 × Fin 256 × Fin 256 :=
  (⟨(v % 262144).toNat % 256, Nat.mod_lt _ (by decide)⟩,
   ⟨(v % 262144).toNat / 256 % 256, Nat.mod_lt _ (by decide)⟩,
   ⟨(v % 262144).toNat / 65536 % 256, Nat.mod_lt _ (by decide)⟩)

/-! ## Lemmas on the decoder -/

theorem and_two_pow_ne_zero (x i : Nat) : x &&& 2 ^ i ≠ 0 ↔ x.testBit i = true := by
  constructor
  · intro h
    by_contra hb
    apply h
    apply Nat.eq_of_testBit_eq
    intro k
    by_cases hk : i = k
    · subst hk
      simp [hb]
    · simp [Nat.testBit_two_pow, hk]
  · intro hb h0
    have h1 : (x &&& 2 ^ i).testBit i = true := by
      simp [Nat.testBit_two_pow, hb]
    rw [h0] at h1
    simp at h1

theorem field18_eq (lo mid hi : Nat) (hlo : lo < 256) (hmid : mid < 256) :
    lo ||| (mid <<< 8) ||| ((hi &&& 0x03) <<< 16) = lo + 256 * mid + 65536 * (hi % 4) := by
  have h3 : hi &&& 0x03 = hi % 4 := Nat.and_pow_two_sub_one_eq_mod hi 2
  have e1 : lo ||| (mid <<< 8) = lo + 256 * mid := by
    rw [Nat.shiftLeft_eq, Nat.or_comm, Nat.mul_comm mid]
    have := Nat.mul_add_lt_is_or (i := 8) (b := lo) (by simpa using hlo) mid
    simp only [Nat.reducePow] at this ⊢
    omega
  have e2 : lo + 256 * mid < 2 ^ 16 := by norm_num; omega
  rw [e1, h3, Nat.shiftLeft_eq, Nat.or_comm, Nat.mul_comm (hi % 4)]
  have := Nat.mul_add_lt_is_or (i := 16) e2 (hi % 4)
  simp only [Nat.reducePow] at this ⊢
  omega

theorem testBit17_iff (raw : Nat) (h : raw < 262144) : raw.testBit 17 = true ↔ 131072 ≤ raw := by
  rw [Nat.testBit_to_div_mod]
  simp only [Nat.reducePow, decide_eq_true_eq]
  omega

theorem signExtend_eq (raw : Nat) (h : raw < 262144) :
    toInt32 (if raw &&& 0x020000 ≠ 0 then raw ||| 0xFFFC0000 else raw) = sx raw := by
  have hb : raw &&& 0x020000 ≠ 0 ↔ raw.testBit 17 = true := and_two_pow_ne_zero raw 17
  unfold sx
  by_cases hs : raw.testBit 17 = true
  · have hge := (testBit17_iff raw h).1 hs
    have hor : raw ||| 0xFFFC0000 = raw + 4294705152 := by
      have := Nat.mul_add_lt_is_or (i := 18) (b := raw) (by simpa using h) 16383
      rw [Nat.or_comm]
      simp only [Nat.reducePow, Nat.reduceMul] at this ⊢
      omega
    rw [if_pos (hb.2 hs), if_pos hs, hor]
    unfold toInt32
    split <;> omega
  · have hlt : raw < 131072 := by
      by_contra hc
      exact hs ((testBit17_iff raw h).2 (by omega))
    rw [if_neg (fun hc => hs (hb.1 hc)), if_neg hs]
    unfold toInt32
    split <;> omega

theorem sx_range (raw : Nat) (h : raw < 262144) : -131072 ≤ sx raw ∧ sx raw ≤ 131071 := by
  unfold sx
  by_cases hs : raw.testBit 17 = true
  · have := (testBit17_iff raw h).1 hs
    rw [if_pos hs]; omega
  · have hlt : raw < 131072 := by
      by_contra hc
      exact hs ((testBit17_iff raw h).2 (by omega))
    rw [if_neg hs]; omega

theorem read_single_cir_sample_eq (acc : Nat → AccumData) (i : Nat) :
    read_single_cir_sample acc i
      = (sx ((acc i).b1.val + 256 * (acc i).b2.val + 65536 * ((acc i).b3.val % 4)),
         sx ((acc i).b4.val + 256 * (acc i).b5.val + 65536 * ((acc i).b6.val % 4))) := by
  have hr := field18_eq (acc i).b1.val (acc i).b2.val (acc i).b3.val (acc i).b1.isLt (acc i).b2.isLt
  have hj := field18_eq (acc i).b4.val (acc i).b5.val (acc i).b6.val (acc i).b4.isLt (acc i).b5.isLt
  have br : (acc i).b1.val + 256 * (acc i).b2.val + 65536 * ((acc i).b3.val % 4) < 262144 := by
    have := (acc i).b1.isLt; have := (acc i).b2.isLt; omega
  have bj : (acc i).b4.val + 256 * (acc i).b5.val + 65536 * ((acc i).b6.val % 4) < 262144 := by
    have := (acc i).b4.isLt; have := (acc i).b5.isLt; omega
  unfold read_single_cir_sample
  simp only [hr, hj]
  rw [signExtend_eq _ br, signExtend_eq _ bj]

/-! ## Lemmas on traces, the window and the loop -/

theorem lines_append (a b : List Event) : lines (a ++ b) = lines a ++ lines b := by
  induction a with
  | nil => rfl
  | cons e t ih => cases e <;> simp [lines, ih]

theorem accReads_append (a b : List Event) : accReads (a ++ b) = accReads a ++ accReads b := by
  induction a with
  | nil => rfl
  | cons e t ih => cases e <;> simp [accReads, ih]

theorem lines_cirEvents (acc : Nat → AccumData) (magnitude : Int → Int → Nat) (n : Nat) :
    ∀ i, lines (cirEvents acc magnitude i n) = (List.range' i n).map (cirLine acc magnitude) := by
  induction n with
  | zero => intro i; rfl
  | succ n ih => intro i; simp [cirEvents, lines, ih, List.range'_succ]

theorem accReads_cirEvents (acc : Nat → AccumData) (magnitude : Int → Int → Nat) (n : Nat) :
    ∀ i, accReads (cirEvents acc magnitude i n) = List.range' i n := by
  induction n with
  | zero => intro i; rfl
  | succ n ih => intro i; simp [cirEvents, accReads, ih, List.range'_succ]

theorem u16_of_lt (n : Nat) (h : n < 65536) : u16 (n : Int) = n := by
  unfold u16; omega

theorem u16_succ (n : Nat) (h : n < 65535) : u16 ((n : Int) + 1) = n + 1 := by
  unfold u16; omega

theorem u16_lt (x : Int) : u16 x < 65536 := by
  unfold u16; omega

/-- With enough fuel the loop of `dump_cir_window` runs to `endIdx` and stops. -/
theorem dump_cir_loop_eq (acc : Nat → AccumData) (magnitude : Int → Int → Nat) (endIdx : Nat)
    (hend : endIdx < 65535) :
    ∀ fuel idx, idx ≤ endIdx + 1 → endIdx + 2 - idx ≤ fuel →
      dump_cir_loop acc magnitude endIdx fuel idx
        = some (cirEvents acc magnitude idx (endIdx + 1 - idx)) := by
  intro fuel
  induction fuel with
  | zero => intro idx h1 h2; omega
  | succ fuel ih =>
    intro idx h1 h2
    unfold dump_cir_loop
    by_cases hle : idx ≤ endIdx
    · rw [if_pos hle, u16_succ idx (by omega), ih (idx + 1) (by omega) (by omega)]
      have hn : endIdx + 1 - idx = (endIdx + 1 - (idx + 1)) + 1 := by omega
      rw [hn]
      simp [cirEvents, cirLine]
    · rw [if_neg hle]
      have hn : endIdx + 1 - idx = 0 := by omega
      rw [hn]
      rfl

/-- When the end index is `0xFFFF` the loop test never fails. -/
theorem dump_cir_loop_diverges (acc : Nat → AccumData) (magnitude : Int → Int → Nat) :
    ∀ fuel idx, idx < 65536 → dump_cir_loop acc magnitude 65535 fuel idx = none := by
  intro fuel
  induction fuel with
  | zero => intro idx _; rfl
  | succ fuel ih =>
    intro idx h
    unfold dump_cir_loop
    rw [if_pos (by omega), ih _ (u16_lt _)]
    rfl

theorem dump_cir_window_eq (acc : Nat → AccumData) (magnitude : Int → Int → Nat)
    (startIdx endIdx fuel : Nat) (hend : endIdx < 65535) (hle : startIdx ≤ endIdx + 1)
    (hfuel : endIdx + 2 - startIdx ≤ fuel) :
    dump_cir_window acc magnitude fuel startIdx endIdx
      = some (Event.printf Line.frameBegin
          :: (cirEvents acc magnitude startIdx (endIdx + 1 - startIdx)
              ++ [Event.printf Line.frameEnd])) := by
  unfold dump_cir_window
  rw [dump_cir_loop_eq acc magnitude endIdx hend fuel startIdx hle hfuel]
  rfl

theorem log_cir_window_bounds_lt (fp : Nat) (h : fp < 1024) :
    log_cir_window_bounds ⟨fp⟩ = (fp, fp - 10, min 1023 (fp + 50)) := by
  simp only [log_cir_window_bounds, u16, ACCUMULATOR_MAX_SAMPLES, CIR_PRE_SAMPLES,
    CIR_POST_SAMPLES]
  have e1 : (((fp : Nat) : Int) % 65536).toNat = fp := by omega
  rw [e1, if_neg (by omega)]
  have e2 : ((((fp : Nat) : Int)) + ((50 : Nat) : Int)) % 65536 = ((fp + 50 : Nat) : Int) := by
    omega
  rw [e2, Int.toNat_ofNat]
  by_cases h10 : fp > 10
  · have e3 : ((((fp : Nat) : Int)) - ((10 : Nat) : Int)) % 65536 = ((fp - 10 : Nat) : Int) := by
      omega
    rw [if_pos h10, e3, Int.toNat_ofNat]
    by_cases hc : fp + 50 ≥ 1024
    · rw [if_pos hc]; simp; omega
    · rw [if_neg hc]; simp; omega
  · rw [if_neg h10]
    by_cases hc : fp + 50 ≥ 1024
    · rw [if_pos hc]; simp; omega
    · rw [if_neg hc]; simp; omega

theorem log_cir_window_bounds_ge (fp : Nat) (h : 1024 ≤ fp) (h2 : fp < 65536) :
    log_cir_window_bounds ⟨fp⟩ = (0, 0, 50) := by
  simp only [log_cir_window_bounds, u16, ACCUMULATOR_MAX_SAMPLES, CIR_PRE_SAMPLES,
    CIR_POST_SAMPLES]
  have e1 : (((fp : Nat) : Int) % 65536).toNat = fp := by omega
  rw [e1, if_pos (by omega)]
  decide

/-- The first-path index that `log_cir_window` works with is below the accumulator size. -/
theorem log_cir_window_bounds_cases (diag : dwt_rxdiag_t) :
    ∃ fp, fp < 1024 ∧ log_cir_window_bounds diag = log_cir_window_bounds ⟨fp⟩
      ∧ fp = (if 1024 ≤ u16 diag.ipatovFpIndex then 0 else u16 diag.ipatovFpIndex) := by
  by_cases h : 1024 ≤ u16 diag.ipatovFpIndex
  · refine ⟨0, by omega, ?_, by rw [if_pos h]⟩
    have : log_cir_window_bounds diag = log_cir_window_bounds ⟨u16 diag.ipatovFpIndex⟩ := by
      simp only [log_cir_window_bounds]
      rw [u16_of_lt _ (u16_lt _)]
    rw [this, log_cir_window_bounds_ge _ h (u16_lt _)]
    decide
  · refine ⟨u16 diag.ipatovFpIndex, by omega, ?_, by rw [if_neg h]⟩
    simp only [log_cir_window_bounds]
    rw [u16_of_lt _ (u16_lt _)]

/-- Shape of the window for any snapshot: it contains the first-path index used, ends
below the accumulator size and spans at most 61 samples. -/
theorem log_cir_window_bounds_le (diag : dwt_rxdiag_t) :
    (log_cir_window_bounds diag).2.1 ≤ (log_cir_window_bounds diag).1
      ∧ (log_cir_window_bounds diag).1 ≤ (log_cir_window_bounds diag).2.2
      ∧ (log_cir_window_bounds diag).2.2 ≤ 1023
      ∧ (log_cir_window_bounds diag).2.2 ≤ (log_cir_window_bounds diag).2.1 + 60 := by
  obtain ⟨fp, hfp, heq, _⟩ := log_cir_window_bounds_cases diag
  rw [heq, log_cir_window_bounds_lt fp hfp]
  simp only []
  omega

/-- With fuel for 62 loop tests `log_cir_window` returns, and its trace is the `CIR_META`
line, `FRAME_BEGIN`, one read and one `CIR` line per index of the window, `FRAME_END`. -/
theorem log_cir_window_trace (acc : Nat → AccumData) (magnitude : Int → Int → Nat)
    (fuel : Nat) (diag : dwt_rxdiag_t) (hfuel : 62 ≤ fuel) :
    log_cir_window acc magnitude fuel diag
      = some (Event.printf (Line.cirMeta (log_cir_window_bounds diag).1
                (log_cir_window_bounds diag).2.1 (log_cir_window_bounds diag).2.2)
          :: Event.printf Line.frameBegin
          :: (cirEvents acc magnitude (log_cir_window_bounds diag).2.1
                ((log_cir_window_bounds diag).2.2 + 1 - (log_cir_window_bounds diag).2.1)
              ++ [Event.printf Line.frameEnd])) := by
  obtain ⟨h1, h2, h3, h4⟩ := log_cir_window_bounds_le diag
  unfold log_cir_window
  simp only []
  rw [dump_cir_window_eq acc magnitude _ _ fuel (by omega) (by omega) (by omega)]
  rfl

/-- The lines of the trace of `log_cir_window_trace`. -/
theorem lines_report (acc : Nat → AccumData) (magnitude : Int → Int → Nat) (fp s e : Nat) :
    lines (Event.printf (Line.cirMeta fp s e) :: Event.printf Line.frameBegin
        :: (cirEvents acc magnitude s (e + 1 - s) ++ [Event.printf Line.frameEnd]))
      = Line.cirMeta fp s e :: Line.frameBegin
          :: ((List.range' s (e + 1 - s)).map (cirLine acc magnitude) ++ [Line.frameEnd]) := by
  simp [lines, lines_append, lines_cirEvents]

theorem rxDataLens_append (a b : List Event) :
    rxDataLens (a ++ b) = rxDataLens a ++ rxDataLens b := by
  induction a with
  | nil => rfl
  | cons e t ih => cases e <;> simp [rxDataLens, ih]

theorem regWrites_append (a b : List Event) :
    regWrites (a ++ b) = regWrites a ++ regWrites b := by
  induction a with
  | nil => rfl
  | cons e t ih => cases e <;> simp [regWrites, ih]

theorem rawOutputs_append (a b : List Event) :
    rawOutputs (a ++ b) = rawOutputs a ++ rawOutputs b := by
  induction a with
  | nil => rfl
  | cons e t ih => cases e <;> simp [rawOutputs, ih]

/-- Polling reads a register and does nothing else. -/
theorem replicate_read_projections (n : Nat) :
    lines (List.replicate n (Event.read32bitreg Reg.SYS_STATUS_ID)) = []
      ∧ accReads (List.replicate n (Event.read32bitreg Reg.SYS_STATUS_ID)) = []
      ∧ rxDataLens (List.replicate n (Event.read32bitreg Reg.SYS_STATUS_ID)) = []
      ∧ regWrites (List.replicate n (Event.read32bitreg Reg.SYS_STATUS_ID)) = []
      ∧ rawOutputs (List.replicate n (Event.read32bitreg Reg.SYS_STATUS_ID)) = []
      ∧ diagReads (List.replicate n (Event.read32bitreg Reg.SYS_STATUS_ID)) = 0 := by
  unfold diagReads
  induction n with
  | zero => simp [lines, accReads, rxDataLens, regWrites, rawOutputs]
  | succ n ih =>
    rw [List.replicate_succ]
    simpa [lines, accReads, rxDataLens, regWrites, rawOutputs] using ih

/-- The loop body of `dump_cir_window` reads the accumulator and prints, nothing else. -/
theorem cirEvents_projections (acc : Nat → AccumData) (magnitude : Int → Int → Nat) (n : Nat) :
    ∀ i, rxDataLens (cirEvents acc magnitude i n) = []
      ∧ regWrites (cirEvents acc magnitude i n) = []
      ∧ rawOutputs (cirEvents acc magnitude i n) = []
      ∧ diagReads (cirEvents acc magnitude i n) = 0 := by
  unfold diagReads
  induction n with
  | zero => intro i; simp [cirEvents, rxDataLens, regWrites, rawOutputs]
  | succ n ih =>
    intro i
    simpa [cirEvents, rxDataLens, regWrites, rawOutputs] using ih (i + 1)

theorem or_eq_zero_imp (a b : Nat) (h : a ||| b = 0) : a = 0 ∧ b = 0 := by
  constructor
  · apply Nat.eq_of_testBit_eq
    intro i
    have := congrArg (fun n => n.testBit i) h
    simp only [Nat.testBit_or, Nat.zero_testBit, Bool.or_eq_false_iff] at this ⊢
    exact this.1
  · apply Nat.eq_of_testBit_eq
    intro i
    have := congrArg (fun n => n.testBit i) h
    simp only [Nat.testBit_or, Nat.zero_testBit, Bool.or_eq_false_iff] at this ⊢
    exact this.2

/-- The exit test of the polling loop succeeds as soon as one of the two masks hits. -/
theorem and_or_ne_zero (s g e : Nat) (h : s &&& g ≠ 0 ∨ s &&& e ≠ 0) :
    s &&& (g ||| e) ≠ 0 := by
  intro h0
  rw [Nat.and_or_distrib_left] at h0
  have := or_eq_zero_imp _ _ h0
  rcases h with h | h
  · exact h this.1
  · exact h this.2

/-- Polling stops at the first status read that shows a good frame or a receive error. -/
theorem poll_status_eq (cfg : Config) (hw : Hw) (k : Nat)
    (hpend : ∀ i, i < k → u32 (hw.sys_status i)
      &&& (cfg.SYS_STATUS_RXFCG_BIT_MASK ||| cfg.SYS_STATUS_ALL_RX_ERR) = 0)
    (hdone : u32 (hw.sys_status k)
      &&& (cfg.SYS_STATUS_RXFCG_BIT_MASK ||| cfg.SYS_STATUS_ALL_RX_ERR) ≠ 0) :
    ∀ fuel j, j ≤ k → k - j < fuel →
      poll_status cfg hw fuel j = some (u32 (hw.sys_status k), pollReads (k - j)) := by
  intro fuel
  induction fuel with
  | zero => intro j _ h; omega
  | succ fuel ih =>
    intro j hj hf
    unfold poll_status
    by_cases hjk : j = k
    · subst hjk
      simp only []
      rw [if_pos hdone]
      simp [pollReads]
    · have hlt : j < k := by omega
      simp only []
      rw [if_neg (by rw [not_not]; exact hpend j hlt), ih (j + 1) (by omega) (by omega)]
      have e : k - j = (k - (j + 1)) + 1 := by omega
      rw [e]
      simp [pollReads, List.replicate_succ]

/-! ## Lemmas on the iteration of the receive loop -/

theorem sx_of_lt (raw : Nat) (h : raw < 262144) :
    sx raw = if 131072 ≤ raw then (raw : Int) - 262144 else (raw : Int) := by
  unfold sx
  by_cases hs : raw.testBit 17 = true
  · rw [if_pos hs, if_pos ((testBit17_iff raw h).1 hs)]
  · rw [if_neg hs, if_neg (fun hc => hs ((testBit17_iff raw h).2 hc))]

theorem raw18_lt (lo mid hi : Fin 256) : raw18 lo mid hi < 262144 := by
  unfold raw18
  have := lo.isLt
  have := mid.isLt
  omega

/-- The decoder in terms of the raw fields of the record read. -/
theorem read_single_cir_sample_raw18 (acc : Nat → AccumData) (i : Nat) :
    read_single_cir_sample acc i
      = (sx (raw18 (acc i).b1 (acc i).b2 (acc i).b3),
         sx (raw18 (acc i).b4 (acc i).b5 (acc i).b6)) :=
  read_single_cir_sample_eq acc i

/-- On 18-bit fields sign extension loses nothing. -/
theorem sx_injective (a b : Nat) (ha : a < 262144) (hb : b < 262144) (h : sx a = sx b) :
    a = b := by
  rw [sx_of_lt a ha, sx_of_lt b hb] at h
  split at h <;> split at h <;> omega

/-- Sign extension undoes the reduction modulo `2^18` on the signed 18-bit range. -/
theorem sx_pack (v : Int) (h1 : -131072 ≤ v) (h2 : v ≤ 131071) :
    sx (raw18 (pack18 v).1 (pack18 v).2.1 (pack18 v).2.2) = v := by
  have hr : raw18 (pack18 v).1 (pack18 v).2.1 (pack18 v).2.2 = (v % 262144).toNat := by
    simp only [raw18, pack18]
    omega
  rw [hr, sx_of_lt _ (by omega)]
  split <;> omega

theorem and_or_eq_zero_iff (s g e : Nat) : s &&& (g ||| e) = 0 ↔ s &&& g = 0 ∧ s &&& e = 0 := by
  constructor
  · intro h
    rw [Nat.and_or_distrib_left] at h
    exact or_eq_zero_imp _ _ h
  · rintro ⟨h1, h2⟩
    rw [Nat.and_or_distrib_left, h1, h2]
    rfl

theorem payload_copy_projections (cfg : Config) (hw : Hw) :
    lines (payload_copy cfg hw).2 = [] ∧ rawOutputs (payload_copy cfg hw).2 = []
      ∧ regWrites (payload_copy cfg hw).2 = [] ∧ accReads (payload_copy cfg hw).2 = []
      ∧ diagReads (payload_copy cfg hw).2 = 0 := by
  unfold payload_copy
  split <;> exact ⟨rfl, rfl, rfl, rfl, rfl⟩

theorem reportEvents_projections (acc : Nat → AccumData) (magnitude : Int → Int → Nat)
    (diag : dwt_rxdiag_t) :
    lines (reportEvents acc magnitude diag) = reportLines acc magnitude diag
      ∧ rawOutputs (reportEvents acc magnitude diag) = []
      ∧ regWrites (reportEvents acc magnitude diag) = []
      ∧ diagReads (reportEvents acc magnitude diag) = 0
      ∧ accReads (reportEvents acc magnitude diag)
          = List.range' (log_cir_window_bounds diag).2.1
              ((log_cir_window_bounds diag).2.2 + 1 - (log_cir_window_bounds diag).2.1) := by
  obtain ⟨_, c2, c3, c4⟩ := cirEvents_projections acc magnitude
    ((log_cir_window_bounds diag).2.2 + 1 - (log_cir_window_bounds diag).2.1)
    (log_cir_window_bounds diag).2.1
  unfold diagReads at c4 ⊢
  refine ⟨lines_report acc magnitude _ _ _, ?_, ?_, ?_, ?_⟩
  · simp [reportEvents, rawOutputs, rawOutputs_append, c3]
  · simp [reportEvents, regWrites, regWrites_append, c2]
  · simp [reportEvents, c4]
  · simp [reportEvents, accReads, accReads_append, accReads_cirEvents]

/-- With fuel for 62 loop tests `log_cir_window` returns `reportEvents`. -/
theorem log_cir_window_reportEvents (acc : Nat → AccumData) (magnitude : Int → Int → Nat)
    (fuel : Nat) (diag : dwt_rxdiag_t) (hfuel : 62 ≤ fuel) :
    log_cir_window acc magnitude fuel diag = some (reportEvents acc magnitude diag) :=
  log_cir_window_trace acc magnitude fuel diag hfuel

/-- The iteration when polling stops at the `k`-th status read with the frame-good bit
set: locals and trace. -/
theorem simple_rx_iteration_good_eq (cfg : Config) (magnitude : Int → Int → Nat) (hw : Hw)
    (k fuel : Nat)
    (hpend : ∀ i, i < k → u32 (hw.sys_status i)
      &&& (cfg.SYS_STATUS_RXFCG_BIT_MASK ||| cfg.SYS_STATUS_ALL_RX_ERR) = 0)
    (hgood : u32 (hw.sys_status k) &&& cfg.SYS_STATUS_RXFCG_BIT_MASK ≠ 0)
    (hfuel : k < fuel) (hloop : 62 ≤ fuel) :
    simple_rx_iteration cfg magnitude hw fuel = some
      { rx_buffer := (payload_copy cfg hw).1
        status_reg := u32 (hw.sys_status k)
        trace := Event.rxenable RxMode.DWT_START_RX_IMMEDIATE :: pollReads k
          ++ Event.read32bitreg Reg.RX_FINFO_ID :: (payload_copy cfg hw).2
          ++ Event.readdiagnostics :: reportEvents hw.acc magnitude hw.diag
          ++ [Event.write32bitreg Reg.SYS_STATUS_ID cfg.SYS_STATUS_RXFCG_BIT_MASK,
              Event.puts "FRAME RECEIVED\r\n"] } := by
  have hpoll := poll_status_eq cfg hw k hpend (and_or_ne_zero _ _ _ (Or.inl hgood)) fuel 0
    (by omega) (by omega)
  have hlog := log_cir_window_reportEvents hw.acc magnitude fuel hw.diag hloop
  unfold simple_rx_iteration
  simp only [hpoll, hlog, Nat.sub_zero]
  rw [if_pos hgood]
  rfl

/-- The iteration when polling stops at the `k`-th status read with the frame-good bit
clear: locals and trace. -/
theorem simple_rx_iteration_error_eq (cfg : Config) (magnitude : Int → Int → Nat) (hw : Hw)
    (k fuel : Nat)
    (hpend : ∀ i, i < k → u32 (hw.sys_status i)
      &&& (cfg.SYS_STATUS_RXFCG_BIT_MASK ||| cfg.SYS_STATUS_ALL_RX_ERR) = 0)
    (hgood : u32 (hw.sys_status k) &&& cfg.SYS_STATUS_RXFCG_BIT_MASK = 0)
    (herr : u32 (hw.sys_status k) &&& cfg.SYS_STATUS_ALL_RX_ERR ≠ 0)
    (hfuel : k < fuel) :
    simple_rx_iteration cfg magnitude hw fuel = some
      { rx_buffer := List.replicate cfg.FRAME_LEN_MAX 0
        status_reg := u32 (hw.sys_status k)
        trace := Event.rxenable RxMode.DWT_START_RX_IMMEDIATE :: pollReads k
          ++ [Event.write32bitreg Reg.SYS_STATUS_ID cfg.SYS_STATUS_ALL_RX_ERR] } := by
  have hpoll := poll_status_eq cfg hw k hpend (and_or_ne_zero _ _ _ (Or.inr herr)) fuel 0
    (by omega) (by omega)
  unfold simple_rx_iteration
  simp only [hpoll, Nat.sub_zero]
  rw [if_neg (by rw [not_not]; exact hgood)]

/-- Projections of the trace of a good-frame iteration. -/
theorem good_trace_projections (cfg : Config) (magnitude : Int → Int → Nat) (hw : Hw)
    (k : Nat) :
    lines (Event.rxenable RxMode.DWT_START_RX_IMMEDIATE :: pollReads k
          ++ Event.read32bitreg Reg.RX_FINFO_ID :: (payload_copy cfg hw).2
          ++ Event.readdiagnostics :: reportEvents hw.acc magnitude hw.diag
          ++ [Event.write32bitreg Reg.SYS_STATUS_ID cfg.SYS_STATUS_RXFCG_BIT_MASK,
              Event.puts "FRAME RECEIVED\r\n"])
        = reportLines hw.acc magnitude hw.diag
      ∧ rawOutputs (Event.rxenable RxMode.DWT_START_RX_IMMEDIATE :: pollReads k
          ++ Event.read32bitreg Reg.RX_FINFO_ID :: (payload_copy cfg hw).2
          ++ Event.readdiagnostics :: reportEvents hw.acc magnitude hw.diag
          ++ [Event.write32bitreg Reg.SYS_STATUS_ID cfg.SYS_STATUS_RXFCG_BIT_MASK,
              Event.puts "FRAME RECEIVED\r\n"])
        = ["FRAME RECEIVED\r\n"]
      ∧ regWrites (Event.rxenable RxMode.DWT_START_RX_IMMEDIATE :: pollReads k
          ++ Event.read32bitreg Reg.RX_FINFO_ID :: (payload_copy cfg hw).2
          ++ Event.readdiagnostics :: reportEvents hw.acc magnitude hw.diag
          ++ [Event.write32bitreg Reg.SYS_STATUS_ID cfg.SYS_STATUS_RXFCG_BIT_MASK,
              Event.puts "FRAME RECEIVED\r\n"])
        = [(Reg.SYS_STATUS_ID, cfg.SYS_STATUS_RXFCG_BIT_MASK)]
      ∧ diagReads (Event.rxenable RxMode.DWT_START_RX_IMMEDIATE :: pollReads k
          ++ Event.read32bitreg Reg.RX_FINFO_ID :: (payload_copy cfg hw).2
          ++ Event.readdiagnostics :: reportEvents hw.acc magnitude hw.diag
          ++ [Event.write32bitreg Reg.SYS_STATUS_ID cfg.SYS_STATUS_RXFCG_BIT_MASK,
              Event.puts "FRAME RECEIVED\r\n"])
        = 1 := by
  have q := replicate_read_projections (k + 1)
  obtain ⟨p1, p2, p3, _, p5⟩ := payload_copy_projections cfg hw
  obtain ⟨r1, r2, r3, r4, _⟩ := reportEvents_projections hw.acc magnitude hw.diag
  refine ⟨?_, ?_, ?_, ?_⟩
  · have h1 : lines (Event.rxenable RxMode.DWT_START_RX_IMMEDIATE :: pollReads k) = [] := q.1
    have h2 : lines (Event.read32bitreg Reg.RX_FINFO_ID :: (payload_copy cfg hw).2) = [] := p1
    have h3 : lines (Event.readdiagnostics :: reportEvents hw.acc magnitude hw.diag)
        = reportLines hw.acc magnitude hw.diag := r1
    rw [lines_append, lines_append, lines_append, h1, h2, h3]
    simp [lines]
  · have h1 : rawOutputs (Event.rxenable RxMode.DWT_START_RX_IMMEDIATE :: pollReads k) = [] :=
      q.2.2.2.2.1
    have h2 : rawOutputs (Event.read32bitreg Reg.RX_FINFO_ID :: (payload_copy cfg hw).2) = [] :=
      p2
    have h3 : rawOutputs (Event.readdiagnostics :: reportEvents hw.acc magnitude hw.diag)
        = [] := r2
    rw [rawOutputs_append, rawOutputs_append, rawOutputs_append, h1, h2, h3]
    simp [rawOutputs]
  · have h1 : regWrites (Event.rxenable RxMode.DWT_START_RX_IMMEDIATE :: pollReads k) = [] :=
      q.2.2.2.1
    have h2 : regWrites (Event.read32bitreg Reg.RX_FINFO_ID :: (payload_copy cfg hw).2) = [] :=
      p3
    have h3 : regWrites (Event.readdiagnostics :: reportEvents hw.acc magnitude hw.diag)
        = [] := r3
    rw [regWrites_append, regWrites_append, regWrites_append, h1, h2, h3]
    simp [regWrites]
  · have h1 : List.count Event.readdiagnostics
        (Event.rxenable RxMode.DWT_START_RX_IMMEDIATE :: pollReads k) = 0 := by
      rw [List.count_cons_of_ne (by decide)]
      exact q.2.2.2.2.2
    have h2 : List.count Event.readdiagnostics
        (Event.read32bitreg Reg.RX_FINFO_ID :: (payload_copy cfg hw).2) = 0 := by
      rw [List.count_cons_of_ne (by decide)]
      exact p5
    have h3 : List.count Event.readdiagnostics
        (Event.readdiagnostics :: reportEvents hw.acc magnitude hw.diag) = 1 := by
      rw [List.count_cons_self]
      have : List.count Event.readdiagnostics (reportEvents hw.acc magnitude hw.diag) = 0 := r4
      omega
    unfold diagReads
    rw [List.count_append, List.count_append, List.count_append, h1, h2, h3]
    simp

/-- Projections of the trace of an error iteration. -/
theorem error_trace_projections (cfg : Config) (k : Nat) :
    lines (Event.rxenable RxMode.DWT_START_RX_IMMEDIATE :: pollReads k
          ++ [Event.write32bitreg Reg.SYS_STATUS_ID cfg.SYS_STATUS_ALL_RX_ERR]) = []
      ∧ rawOutputs (Event.rxenable RxMode.DWT_START_RX_IMMEDIATE :: pollReads k
          ++ [Event.write32bitreg Reg.SYS_STATUS_ID cfg.SYS_STATUS_ALL_RX_ERR]) = []
      ∧ regWrites (Event.rxenable RxMode.DWT_START_RX_IMMEDIATE :: pollReads k
          ++ [Event.write32bitreg Reg.SYS_STATUS_ID cfg.SYS_STATUS_ALL_RX_ERR])
        = [(Reg.SYS_STATUS_ID, cfg.SYS_STATUS_ALL_RX_ERR)]
      ∧ diagReads (Event.rxenable RxMode.DWT_START_RX_IMMEDIATE :: pollReads k
          ++ [Event.write32bitreg Reg.SYS_STATUS_ID cfg.SYS_STATUS_ALL_RX_ERR]) = 0 := by
  have q := replicate_read_projections
  have qd : ∀ n, List.count Event.readdiagnostics
      (List.replicate n (Event.read32bitreg Reg.SYS_STATUS_ID)) = 0 := fun n => (q n).2.2.2.2.2
  refine ⟨?_, ?_, ?_, ?_⟩
  · simp [pollReads, lines, lines_append, (q _).1]
  · simp [pollReads, rawOutputs, rawOutputs_append, (q _).2.2.2.2.1]
  · simp [pollReads, regWrites, regWrites_append, (q _).2.2.2.1]
  · simp [pollReads, diagReads, qd]

/-! # Properties of the program -/

/-! ## The sample decoder (C1, C2) -/

/-- C1: for every 7-byte accumulator record, `read_single_cir_sample` returns
`real = sx (b1 + 256*b2 + 65536*(b3 mod 4))` and `imag = sx (b4 + 256*b5 + 65536*(b6 mod 4))`,
where `sx` subtracts 262144 exactly when bit 17 is set: the OR with `0xFFFC0000` on the
32-bit two's-complement pattern agrees with the arithmetic formula.  Raw `0x020001`
decodes to -131071 and raw `0x000001` to 1. -/
theorem read_single_cir_sample_sign_extension (acc : Nat → AccumData) (i : Nat) :
    read_single_cir_sample acc i
        = (sx ((acc i).b1.val + 256 * (acc i).b2.val + 65536 * ((acc i).b3.val % 4)),
           sx ((acc i).b4.val + 256 * (acc i).b5.val + 65536 * ((acc i).b6.val % 4)))
      ∧ sx 0x020001 = -131071 ∧ sx 0x000001 = 1
      ∧ read_single_cir_sample (fun _ => ⟨0, 1, 0, 2, 1, 0, 0⟩) i = (-131071, 1) := by
  refine ⟨read_single_cir_sample_eq acc i, by decide, by decide, ?_⟩
  rw [read_single_cir_sample_eq]
  decide

/-- C2: for every 7-byte accumulator record, the real and the imaginary value returned
by `read_single_cir_sample` both lie in the closed interval [-131072, 131071]. -/
theorem read_single_cir_sample_range (acc : Nat → AccumData) (i : Nat) :
    -131072 ≤ (read_single_cir_sample acc i).1 ∧ (read_single_cir_sample acc i).1 ≤ 131071
      ∧ -131072 ≤ (read_single_cir_sample acc i).2
      ∧ (read_single_cir_sample acc i).2 ≤ 131071 := by
  have br : (acc i).b1.val + 256 * (acc i).b2.val + 65536 * ((acc i).b3.val % 4) < 262144 := by
    have := (acc i).b1.isLt; have := (acc i).b2.isLt; omega
  have bj : (acc i).b4.val + 256 * (acc i).b5.val + 65536 * ((acc i).b6.val % 4) < 262144 := by
    have := (acc i).b4.isLt; have := (acc i).b5.isLt; omega
  rw [read_single_cir_sample_eq]
  exact ⟨(sx_range _ br).1, (sx_range _ br).2, (sx_range _ bj).1, (sx_range _ bj).2⟩

/-! ## The window of `log_cir_window` (C3, C4) -/

/-- C3: for every first-path index `fp` with `0 <= fp < 1024`, `log_cir_window` keeps
`fp` and computes `start = max(0, fp - 10)` and `end = min(1023, fp + 50)`, the
16-bit results agreeing with the unbounded integer formulas (no wrap-around).  `fp = 5`
gives `start = 0`, `fp = 1020` gives `end = 1023`, `fp = 100` gives 90 and 150. -/
theorem log_cir_window_bounds_clamped (fp : Nat) (h : fp < 1024) :
    (log_cir_window_bounds ⟨fp⟩).1 = fp
      ∧ (((log_cir_window_bounds ⟨fp⟩).2.1 : Nat) : Int) = max 0 ((fp : Int) - 10)
      ∧ (((log_cir_window_bounds ⟨fp⟩).2.2 : Nat) : Int) = min 1023 ((fp : Int) + 50)
      ∧ (log_cir_window_bounds ⟨5⟩).2.1 = 0
      ∧ (log_cir_window_bounds ⟨1020⟩).2.2 = 1023
      ∧ log_cir_window_bounds ⟨100⟩ = (100, 90, 150) := by
  rw [log_cir_window_bounds_lt fp h]
  refine ⟨rfl, ?_, ?_, by decide, by decide, by decide⟩
  · simp only []
    omega
  · simp only []
    omega

/-- Witness of C3 at `fp = 1020`. -/
theorem log_cir_window_bounds_clamped_witness :
    (1020 : Nat) < 1024
      ∧ (log_cir_window_bounds ⟨1020⟩).1 = 1020
      ∧ (((log_cir_window_bounds ⟨1020⟩).2.1 : Nat) : Int) = max 0 (((1020 : Nat) : Int) - 10)
      ∧ (((log_cir_window_bounds ⟨1020⟩).2.2 : Nat) : Int)
          = min 1023 (((1020 : Nat) : Int) + 50) :=
  ⟨by decide, (log_cir_window_bounds_clamped 1020 (by decide)).1,
    (log_cir_window_bounds_clamped 1020 (by decide)).2.1,
    (log_cir_window_bounds_clamped 1020 (by decide)).2.2.1⟩

/-- C4: every 16-bit first-path index `fp >= 1024` is treated as 0 by `log_cir_window`:
the reported FP is 0, start is 0 and end is 50, the run is the run for `fp = 0`, and it
returns normally with the ordinary group of lines (for instance at `fp = 2000`). -/
theorem log_cir_window_out_of_range (acc : Nat → AccumData) (magnitude : Int → Int → Nat)
    (fuel fp : Nat) (h : 1024 ≤ fp) (h16 : fp < 65536) :
    log_cir_window_bounds ⟨fp⟩ = (0, 0, 50)
      ∧ log_cir_window acc magnitude fuel ⟨fp⟩ = log_cir_window acc magnitude fuel ⟨0⟩
      ∧ (log_cir_window acc magnitude (fuel + 62) ⟨fp⟩).map lines
          = some (Line.cirMeta 0 0 50 :: Line.frameBegin
              :: ((List.range' 0 51).map (cirLine acc magnitude) ++ [Line.frameEnd])) := by
  have hb := log_cir_window_bounds_ge fp h h16
  refine ⟨hb, ?_, ?_⟩
  · unfold log_cir_window
    rw [hb]
    rfl
  · rw [log_cir_window_trace acc magnitude (fuel + 62) ⟨fp⟩ (by omega), hb, Option.map_some',
      lines_report]
    rfl

/-- Witness of C4 at `fp = 2000`. -/
theorem log_cir_window_out_of_range_witness :
    (1024 : Nat) ≤ 2000 ∧ (2000 : Nat) < 65536
      ∧ log_cir_window_bounds ⟨2000⟩ = (0, 0, 50)
      ∧ (log_cir_window zeroAcc sqrtMag (0 + 62) ⟨2000⟩).map lines
          = some (Line.cirMeta 0 0 50 :: Line.frameBegin
              :: ((List.range' 0 51).map (cirLine zeroAcc sqrtMag) ++ [Line.frameEnd])) :=
  ⟨by decide, by decide,
    (log_cir_window_out_of_range zeroAcc sqrtMag 0 2000 (by decide) (by decide)).1,
    (log_cir_window_out_of_range zeroAcc sqrtMag 0 2000 (by decide) (by decide)).2.2⟩

/-- C5: for every diagnostics snapshot and accumulator content, `log_cir_window` returns
and the lines it prints are exactly: one `CIR_META` line with the (possibly substituted)
first-path index, start and end; `FRAME_BEGIN`; `end - start + 1` `CIR` lines with
indices `start, start+1, ..., end` in that order; `FRAME_END`.  For `fp_index = 10` this
is `CIR_META,FP=10,START=0,END=60`, `FRAME_BEGIN`, 61 `CIR` lines and `FRAME_END`. -/
theorem log_cir_window_lines (acc : Nat → AccumData) (magnitude : Int → Int → Nat)
    (fuel : Nat) (diag : dwt_rxdiag_t) :
    (log_cir_window acc magnitude (fuel + 62) diag).map lines
        = some (Line.cirMeta (log_cir_window_bounds diag).1 (log_cir_window_bounds diag).2.1
                (log_cir_window_bounds diag).2.2
            :: Line.frameBegin
            :: ((List.range' (log_cir_window_bounds diag).2.1
                  ((log_cir_window_bounds diag).2.2 - (log_cir_window_bounds diag).2.1 + 1)).map
                  (cirLine acc magnitude)
                ++ [Line.frameEnd]))
      ∧ (log_cir_window_bounds diag).2.1 ≤ (log_cir_window_bounds diag).2.2
      ∧ (log_cir_window_bounds diag).1
          = (if 1024 ≤ u16 diag.ipatovFpIndex then 0 else u16 diag.ipatovFpIndex)
      ∧ (log_cir_window acc magnitude (fuel + 62) ⟨10⟩).map lines
          = some (Line.cirMeta 10 0 60 :: Line.frameBegin
              :: ((List.range' 0 61).map (cirLine acc magnitude) ++ [Line.frameEnd]))
      ∧ ((List.range' 0 61).map (cirLine acc magnitude)).length = 61 := by
  obtain ⟨h1, h2, h3, h4⟩ := log_cir_window_bounds_le diag
  refine ⟨?_, by omega, ?_, ?_, by simp⟩
  · rw [log_cir_window_trace acc magnitude (fuel + 62) diag (by omega), Option.map_some',
      lines_report]
    have e : (log_cir_window_bounds diag).2.2 + 1 - (log_cir_window_bounds diag).2.1
        = (log_cir_window_bounds diag).2.2 - (log_cir_window_bounds diag).2.1 + 1 := by omega
    rw [e]
  · rfl
  · rw [log_cir_window_trace acc magnitude (fuel + 62) ⟨10⟩ (by omega), Option.map_some',
      lines_report]
    rfl

/-! ## The loop of `dump_cir_window` (C6, C7) -/

/-- C6 as stated fails at `end = 0xFFFF`: with `start = end = 65535` (so `start <= end`,
both 16-bit) the test `idx <= endIdx` holds for every 16-bit `idx`, the increment wraps
to 0, and `dump_cir_window` never returns, whatever the fuel. -/
theorem dump_cir_window_max_end_diverges :
    (65535 : Nat) ≤ 65535 ∧ (65535 : Nat) < 65536
      ∧ ¬ ∃ fuel, (dump_cir_window zeroAcc sqrtMag fuel 65535 65535).isSome = true := by
  refine ⟨by decide, by decide, ?_⟩
  rintro ⟨fuel, h⟩
  unfold dump_cir_window at h
  rw [dump_cir_loop_diverges zeroAcc sqrtMag fuel 65535 (by decide)] at h
  simp at h

/-- C6 (amended): for every pair of indices `start <= end` with `end < 65535`,
`dump_cir_window` returns; between `FRAME_BEGIN` and `FRAME_END` it prints exactly
`end - start + 1` `CIR` lines, one per index of `[start, end]` in increasing order, each
with the pair `read_single_cir_sample` returns for that index, and it reads exactly
those accumulator records. -/
theorem dump_cir_window_records (acc : Nat → AccumData) (magnitude : Int → Int → Nat)
    (fuel startIdx endIdx : Nat) (hle : startIdx ≤ endIdx) (hend : endIdx < 65535) :
    ∃ tr, dump_cir_window acc magnitude (fuel + (endIdx - startIdx + 2)) startIdx endIdx = some tr
      ∧ lines tr = Line.frameBegin
          :: ((List.range' startIdx (endIdx - startIdx + 1)).map
                (fun i => Line.cir i (read_single_cir_sample acc i).1
                  (read_single_cir_sample acc i).2
                  (magnitude (read_single_cir_sample acc i).1 (read_single_cir_sample acc i).2))
              ++ [Line.frameEnd])
      ∧ accReads tr = List.range' startIdx (endIdx - startIdx + 1)
      ∧ (List.range' startIdx (endIdx - startIdx + 1)).length = endIdx - startIdx + 1
      ∧ List.Pairwise (fun a b => a < b) (List.range' startIdx (endIdx - startIdx + 1)) := by
  refine ⟨_, dump_cir_window_eq acc magnitude startIdx endIdx _ hend (by omega) (by omega),
    ?_, ?_, by simp, ?_⟩
  · have e : endIdx + 1 - startIdx = endIdx - startIdx + 1 := by omega
    rw [e]
    simp [lines, lines_append, lines_cirEvents]
    rfl
  · have e : endIdx + 1 - startIdx = endIdx - startIdx + 1 := by omega
    have hb : ∀ l : List Event, accReads (Event.printf Line.frameBegin :: l) = accReads l :=
      fun _ => rfl
    have he : accReads [Event.printf Line.frameEnd] = [] := rfl
    rw [hb, accReads_append, accReads_cirEvents, he, List.append_nil, e]
  · exact List.pairwise_lt_range' startIdx (endIdx - startIdx + 1)

/-- Witness of C6 (amended) at the window `[5, 7]`. -/
theorem dump_cir_window_records_witness :
    (5 : Nat) ≤ 7 ∧ (7 : Nat) < 65535
      ∧ ∃ tr, dump_cir_window zeroAcc sqrtMag (0 + (7 - 5 + 2)) 5 7 = some tr
        ∧ accReads tr = List.range' 5 (7 - 5 + 1) := by
  obtain ⟨tr, h1, _, h3, _⟩ :=
    dump_cir_window_records zeroAcc sqrtMag 0 5 7 (by decide) (by decide)
  exact ⟨by decide, by decide, tr, h1, h3⟩

/-- C7: for every pair of indices with `start > end`, `dump_cir_window` returns after
the first loop test, reads no accumulator record and prints no `CIR` line: its whole
trace is `FRAME_BEGIN` followed by `FRAME_END`. -/
theorem dump_cir_window_empty (acc : Nat → AccumData) (magnitude : Int → Int → Nat)
    (fuel startIdx endIdx : Nat) (hgt : endIdx < startIdx) :
    dump_cir_window acc magnitude (fuel + 1) startIdx endIdx
        = some [Event.printf Line.frameBegin, Event.printf Line.frameEnd]
      ∧ accReads [Event.printf Line.frameBegin, Event.printf Line.frameEnd] = []
      ∧ lines [Event.printf Line.frameBegin, Event.printf Line.frameEnd]
          = [Line.frameBegin, Line.frameEnd] := by
  refine ⟨?_, rfl, rfl⟩
  unfold dump_cir_window dump_cir_loop
  rw [if_neg (by omega)]
  rfl

/-- Witness of C7 at `start = 9`, `end = 3`. -/
theorem dump_cir_window_empty_witness :
    (3 : Nat) < 9
      ∧ dump_cir_window zeroAcc sqrtMag (0 + 1) 9 3
          = some [Event.printf Line.frameBegin, Event.printf Line.frameEnd] :=
  ⟨by decide, (dump_cir_window_empty zeroAcc sqrtMag 0 9 3 (by decide)).1⟩

/-! ## One iteration of the receive loop (C8, C9, C10) -/

/-- C8: in every loop iteration of `simple_rx` whose polled status has the frame-good
bit clear and a receive-error bit set, the iteration finishes and prints no line, writes
no string, reads neither payload nor diagnostics nor accumulator, leaves `rx_buffer`
all zero as cleared at the start of the iteration, and its only register write is the
write of the receive-error mask to `SYS_STATUS`. -/
theorem simple_rx_iteration_error (cfg : Config) (magnitude : Int → Int → Nat) (hw : Hw)
    (k fuel : Nat)
    (hpend : ∀ i, i < k → u32 (hw.sys_status i)
      &&& (cfg.SYS_STATUS_RXFCG_BIT_MASK ||| cfg.SYS_STATUS_ALL_RX_ERR) = 0)
    (hgood : u32 (hw.sys_status k) &&& cfg.SYS_STATUS_RXFCG_BIT_MASK = 0)
    (herr : u32 (hw.sys_status k) &&& cfg.SYS_STATUS_ALL_RX_ERR ≠ 0)
    (hfuel : k < fuel) :
    ∃ r, simple_rx_iteration cfg magnitude hw fuel = some r
      ∧ r.status_reg = u32 (hw.sys_status k)
      ∧ r.trace = Event.rxenable RxMode.DWT_START_RX_IMMEDIATE :: pollReads k
          ++ [Event.write32bitreg Reg.SYS_STATUS_ID cfg.SYS_STATUS_ALL_RX_ERR]
      ∧ lines r.trace = [] ∧ rawOutputs r.trace = []
      ∧ rxDataLens r.trace = [] ∧ diagReads r.trace = 0 ∧ accReads r.trace = []
      ∧ r.rx_buffer = List.replicate cfg.FRAME_LEN_MAX 0
      ∧ regWrites r.trace = [(Reg.SYS_STATUS_ID, cfg.SYS_STATUS_ALL_RX_ERR)] := by
  have hpoll := poll_status_eq cfg hw k hpend (and_or_ne_zero _ _ _ (Or.inr herr)) fuel 0
    (by omega) (by omega)
  have q := replicate_read_projections
  have qd : ∀ n, List.count Event.readdiagnostics
      (List.replicate n (Event.read32bitreg Reg.SYS_STATUS_ID)) = 0 := fun n => (q n).2.2.2.2.2
  have hiter : simple_rx_iteration cfg magnitude hw fuel = some
      { rx_buffer := List.replicate cfg.FRAME_LEN_MAX 0
        status_reg := u32 (hw.sys_status k)
        trace := Event.rxenable RxMode.DWT_START_RX_IMMEDIATE :: pollReads k
          ++ [Event.write32bitreg Reg.SYS_STATUS_ID cfg.SYS_STATUS_ALL_RX_ERR] } := by
    unfold simple_rx_iteration
    simp only [hpoll, Nat.sub_zero]
    rw [if_neg (by rw [not_not]; exact hgood)]
  refine ⟨_, hiter, rfl, rfl, ?_, ?_, ?_, ?_, ?_, rfl, ?_⟩
  · simp [pollReads, lines, lines_append, (q _).1]
  · simp [pollReads, rawOutputs, rawOutputs_append, (q _).2.2.2.2.1]
  · simp [pollReads, rxDataLens, rxDataLens_append, (q _).2.2.1]
  · simp [pollReads, diagReads, qd]
  · simp [pollReads, accReads, accReads_append, (q _).2.1]
  · simp [pollReads, regWrites, regWrites_append, (q _).2.2.2.1]

/-- Witness of C8: a frame check error seen at the fourth status read. -/
theorem simple_rx_iteration_error_witness :
    ∃ r, simple_rx_iteration dw3000Config sqrtMag errorHw 4 = some r
      ∧ r.status_reg = 0x8000
      ∧ lines r.trace = [] ∧ rawOutputs r.trace = []
      ∧ r.rx_buffer = List.replicate 127 0
      ∧ regWrites r.trace = [(Reg.SYS_STATUS_ID, 0x24059000)] := by
  obtain ⟨r, h1, h2, _, h4, h5, _, _, _, h9, h10⟩ :=
    simple_rx_iteration_error dw3000Config sqrtMag errorHw 3 4 (by decide) (by decide)
      (by decide) (by decide)
  exact ⟨r, h1, h2, h4, h5, h9, h10⟩

/-- C9: in every good-frame iteration of `simple_rx` whose reported frame length exceeds
`FRAME_LEN_MAX`, the iteration finishes, no `dwt_readrxdata` call is made and `rx_buffer`
stays all zero, the diagnostics are still read once, the full
`CIR_META`/`FRAME_BEGIN`/`CIR`.../`FRAME_END` group is printed, and the frame-good bit is
written to `SYS_STATUS`. -/
theorem simple_rx_iteration_overlong (cfg : Config) (magnitude : Int → Int → Nat) (hw : Hw)
    (k fuel : Nat)
    (hpend : ∀ i, i < k → u32 (hw.sys_status i)
      &&& (cfg.SYS_STATUS_RXFCG_BIT_MASK ||| cfg.SYS_STATUS_ALL_RX_ERR) = 0)
    (hgood : u32 (hw.sys_status k) &&& cfg.SYS_STATUS_RXFCG_BIT_MASK ≠ 0)
    (hlen : cfg.FRAME_LEN_MAX < frame_len_of cfg hw)
    (hfuel : k < fuel) (hloop : 62 ≤ fuel) :
    ∃ r report, log_cir_window hw.acc magnitude fuel hw.diag = some report
      ∧ simple_rx_iteration cfg magnitude hw fuel = some r
      ∧ r.trace = Event.rxenable RxMode.DWT_START_RX_IMMEDIATE :: pollReads k
          ++ [Event.read32bitreg Reg.RX_FINFO_ID]
          ++ Event.readdiagnostics :: report
          ++ [Event.write32bitreg Reg.SYS_STATUS_ID cfg.SYS_STATUS_RXFCG_BIT_MASK,
              Event.puts "FRAME RECEIVED\r\n"]
      ∧ rxDataLens r.trace = []
      ∧ r.rx_buffer = List.replicate cfg.FRAME_LEN_MAX 0
      ∧ diagReads r.trace = 1
      ∧ lines r.trace
          = Line.cirMeta (log_cir_window_bounds hw.diag).1 (log_cir_window_bounds hw.diag).2.1
              (log_cir_window_bounds hw.diag).2.2
            :: Line.frameBegin
            :: ((List.range' (log_cir_window_bounds hw.diag).2.1
                  ((log_cir_window_bounds hw.diag).2.2 + 1
                    - (log_cir_window_bounds hw.diag).2.1)).map (cirLine hw.acc magnitude)
                ++ [Line.frameEnd])
      ∧ regWrites r.trace = [(Reg.SYS_STATUS_ID, cfg.SYS_STATUS_RXFCG_BIT_MASK)] := by
  have hpoll := poll_status_eq cfg hw k hpend (and_or_ne_zero _ _ _ (Or.inl hgood)) fuel 0
    (by omega) (by omega)
  have hlog := log_cir_window_trace hw.acc magnitude fuel hw.diag hloop
  have q := replicate_read_projections
  have qd : ∀ n, List.count Event.readdiagnostics
      (List.replicate n (Event.read32bitreg Reg.SYS_STATUS_ID)) = 0 := fun n => (q n).2.2.2.2.2
  obtain ⟨c1, c2, c3, c4⟩ := cirEvents_projections hw.acc magnitude
    ((log_cir_window_bounds hw.diag).2.2 + 1 - (log_cir_window_bounds hw.diag).2.1)
    (log_cir_window_bounds hw.diag).2.1
  have hiter : simple_rx_iteration cfg magnitude hw fuel = some
      { rx_buffer := List.replicate cfg.FRAME_LEN_MAX 0
        status_reg := u32 (hw.sys_status k)
        trace := Event.rxenable RxMode.DWT_START_RX_IMMEDIATE :: pollReads k
          ++ [Event.read32bitreg Reg.RX_FINFO_ID]
          ++ Event.readdiagnostics
            :: (Event.printf (Line.cirMeta (log_cir_window_bounds hw.diag).1
                  (log_cir_window_bounds hw.diag).2.1 (log_cir_window_bounds hw.diag).2.2)
                :: Event.printf Line.frameBegin
                :: (cirEvents hw.acc magnitude (log_cir_window_bounds hw.diag).2.1
                      ((log_cir_window_bounds hw.diag).2.2 + 1
                        - (log_cir_window_bounds hw.diag).2.1)
                    ++ [Event.printf Line.frameEnd]))
          ++ [Event.write32bitreg Reg.SYS_STATUS_ID cfg.SYS_STATUS_RXFCG_BIT_MASK,
              Event.puts "FRAME RECEIVED\r\n"] } := by
    unfold simple_rx_iteration
    simp only [hpoll, hlog, Nat.sub_zero]
    rw [if_pos hgood, if_neg (by omega)]
  refine ⟨_, _, hlog, hiter, by simp, ?_, rfl, ?_, ?_, ?_⟩
  · simp [pollReads, rxDataLens, rxDataLens_append, (q _).2.2.1, c1]
  · unfold diagReads at c4 ⊢
    simp [pollReads, c4, qd]
  · simp [pollReads, lines, lines_append, (q _).1, lines_cirEvents]
  · simp [pollReads, regWrites, regWrites_append, (q _).2.2.2.1, c2]

/-- Witness of C9: a good frame at the first status read with reported length 200. -/
theorem simple_rx_iteration_overlong_witness :
    frame_len_of dw3000Config (goodHw 200) = 200
      ∧ ∃ r, simple_rx_iteration dw3000Config sqrtMag (goodHw 200) 62 = some r
        ∧ rxDataLens r.trace = []
        ∧ r.rx_buffer = List.replicate 127 0
        ∧ diagReads r.trace = 1
        ∧ regWrites r.trace = [(Reg.SYS_STATUS_ID, 0x4000)] := by
  obtain ⟨r, _, _, h2, _, h4, h5, h6, _, h8⟩ :=
    simple_rx_iteration_overlong dw3000Config sqrtMag (goodHw 200) 0 62 (by decide)
      (by decide) (by decide) (by decide) (by decide)
  exact ⟨by decide, r, h2, h4, h5, h6, h8⟩

/-- C10 at a reported frame length of 0 with the driver's header values (2-byte FCS,
127-byte buffer): the length passes the test `frame_len <= FRAME_LEN_MAX`, the 16-bit
difference `frame_len - FCS_LEN` is 65534, and that is the byte count the iteration asks
`dwt_readrxdata` to copy into the 127-byte buffer.  Length 1 asks for 65535 bytes. -/
theorem simple_rx_iteration_short_frame_copy :
    frame_len_of dw3000Config (goodHw 0) = 0
      ∧ (simple_rx_iteration dw3000Config sqrtMag (goodHw 0) 62).map
          (fun r => rxDataLens r.trace) = some [65534]
      ∧ (simple_rx_iteration dw3000Config sqrtMag (goodHw 1) 62).map
          (fun r => rxDataLens r.trace) = some [65535]
      ∧ dw3000Config.FRAME_LEN_MAX < 65534 := by
  refine ⟨by decide, by decide, by decide, by decide⟩

/-! ## Classification of the status value (C11) -/

/-- C11: every status value falls in exactly one of the classes pending, frame-good,
frame-error of the receive loop of `simple_rx`: pending (another poll follows) iff
neither the frame-good bit nor a receive-error bit is set; frame-good iff the frame-good
bit is set; frame-error iff the frame-good bit is clear and a receive-error bit is set.
The loop acts accordingly on the value of a status read: it polls again, or it takes the
good branch (diagnostics read, frame-good bit written), or it takes the error branch (no
diagnostics read, error mask written), never both. -/
theorem status_classification (cfg : Config) (magnitude : Int → Int → Nat) (hw : Hw)
    (s fuel : Nat) :
    (classify_status cfg s = StatusClass.pending
        ↔ s &&& cfg.SYS_STATUS_RXFCG_BIT_MASK = 0 ∧ s &&& cfg.SYS_STATUS_ALL_RX_ERR = 0)
      ∧ (classify_status cfg s = StatusClass.frame_good
        ↔ s &&& cfg.SYS_STATUS_RXFCG_BIT_MASK ≠ 0)
      ∧ (classify_status cfg s = StatusClass.frame_error
        ↔ s &&& cfg.SYS_STATUS_RXFCG_BIT_MASK = 0 ∧ s &&& cfg.SYS_STATUS_ALL_RX_ERR ≠ 0)
      ∧ (classify_status cfg (u32 (hw.sys_status 0)) = StatusClass.pending →
          poll_status cfg hw (fuel + 1) 0
            = (poll_status cfg hw fuel 1).map fun p =>
                (p.1, Event.read32bitreg Reg.SYS_STATUS_ID :: p.2))
      ∧ (classify_status cfg (u32 (hw.sys_status 0)) = StatusClass.frame_good →
          ∃ r, simple_rx_iteration cfg magnitude hw (fuel + 62) = some r
            ∧ r.status_reg = u32 (hw.sys_status 0) ∧ diagReads r.trace = 1
            ∧ regWrites r.trace = [(Reg.SYS_STATUS_ID, cfg.SYS_STATUS_RXFCG_BIT_MASK)])
      ∧ (classify_status cfg (u32 (hw.sys_status 0)) = StatusClass.frame_error →
          ∃ r, simple_rx_iteration cfg magnitude hw (fuel + 1) = some r
            ∧ r.status_reg = u32 (hw.sys_status 0) ∧ diagReads r.trace = 0
            ∧ regWrites r.trace = [(Reg.SYS_STATUS_ID, cfg.SYS_STATUS_ALL_RX_ERR)]) := by
  have hcls : ∀ t : Nat,
      (classify_status cfg t = StatusClass.pending
          ↔ t &&& cfg.SYS_STATUS_RXFCG_BIT_MASK = 0 ∧ t &&& cfg.SYS_STATUS_ALL_RX_ERR = 0)
        ∧ (classify_status cfg t = StatusClass.frame_good
          ↔ t &&& cfg.SYS_STATUS_RXFCG_BIT_MASK ≠ 0)
        ∧ (classify_status cfg t = StatusClass.frame_error
          ↔ t &&& cfg.SYS_STATUS_RXFCG_BIT_MASK = 0 ∧ t &&& cfg.SYS_STATUS_ALL_RX_ERR ≠ 0) := by
    intro t
    have hz := and_or_eq_zero_iff t cfg.SYS_STATUS_RXFCG_BIT_MASK cfg.SYS_STATUS_ALL_RX_ERR
    unfold classify_status
    by_cases hg : t &&& cfg.SYS_STATUS_RXFCG_BIT_MASK = 0
    · by_cases he : t &&& cfg.SYS_STATUS_ALL_RX_ERR = 0
      · have h0 := hz.2 ⟨hg, he⟩
        simp [h0, hg, he]
      · have h0 : t &&& (cfg.SYS_STATUS_RXFCG_BIT_MASK ||| cfg.SYS_STATUS_ALL_RX_ERR) ≠ 0 :=
          fun h => he (hz.1 h).2
        simp [h0, hg, he]
    · have h0 : t &&& (cfg.SYS_STATUS_RXFCG_BIT_MASK ||| cfg.SYS_STATUS_ALL_RX_ERR) ≠ 0 :=
        fun h => hg (hz.1 h).1
      simp [h0, hg]
  refine ⟨(hcls s).1, (hcls s).2.1, (hcls s).2.2, ?_, ?_, ?_⟩
  · intro hp
    have h0 := (and_or_eq_zero_iff _ _ _).2 ((hcls _).1.1 hp)
    conv_lhs => unfold poll_status
    simp only []
    rw [if_neg (by rw [not_not]; exact h0)]
  · intro hgd
    have hg := (hcls _).2.1.1 hgd
    obtain ⟨_, _, g3, g4⟩ := good_trace_projections cfg magnitude hw 0
    exact ⟨_, simple_rx_iteration_good_eq cfg magnitude hw 0 (fuel + 62)
      (fun i hi => absurd hi (Nat.not_lt_zero i)) hg (by omega) (by omega), rfl, g4, g3⟩
  · intro her
    have he := (hcls _).2.2.1 her
    obtain ⟨_, _, e3, e4⟩ := error_trace_projections cfg 0
    exact ⟨_, simple_rx_iteration_error_eq cfg magnitude hw 0 (fuel + 1)
      (fun i hi => absurd hi (Nat.not_lt_zero i)) he.1 he.2 (by omega), rfl, e4, e3⟩

/-- Witness of C11: with the sample header values, status 0 is pending, `0x4000` is
frame-good and `0x8000` is frame-error, and the iteration on a good frame takes the good
branch. -/
theorem status_classification_witness :
    classify_status dw3000Config 0 = StatusClass.pending
      ∧ classify_status dw3000Config 0x4000 = StatusClass.frame_good
      ∧ classify_status dw3000Config 0x8000 = StatusClass.frame_error
      ∧ ∃ r, simple_rx_iteration dw3000Config sqrtMag (goodHw 20) (0 + 62) = some r
          ∧ r.status_reg = 0x4000 ∧ diagReads r.trace = 1
          ∧ regWrites r.trace = [(Reg.SYS_STATUS_ID, 0x4000)] :=
  ⟨by decide, by decide, by decide,
    (status_classification dw3000Config sqrtMag (goodHw 20) 0 0).2.2.2.2.1 (by decide)⟩

/-! ## Indices handed to the decoder (C12) -/

/-- C12: for every diagnostics snapshot, `log_cir_window` returns, and every sample index
it passes through `dump_cir_window` to `read_single_cir_sample`, as well as every index
printed on a `CIR` line, lies in `[0, 1023]`. -/
theorem log_cir_window_indices_in_range (acc : Nat → AccumData)
    (magnitude : Int → Int → Nat) (fuel : Nat) (diag : dwt_rxdiag_t) :
    ∃ tr, log_cir_window acc magnitude (fuel + 62) diag = some tr
      ∧ (∀ i, i ∈ accReads tr → 0 ≤ i ∧ i ≤ 1023 ∧ i < ACCUMULATOR_MAX_SAMPLES)
      ∧ (∀ idx re im mag, Line.cir idx re im mag ∈ lines tr → 0 ≤ idx ∧ idx ≤ 1023) := by
  obtain ⟨_, _, h3, _⟩ := log_cir_window_bounds_le diag
  obtain ⟨r1, _, _, _, r5⟩ := reportEvents_projections acc magnitude diag
  refine ⟨_, log_cir_window_reportEvents acc magnitude (fuel + 62) diag (by omega), ?_, ?_⟩
  · intro i hi
    rw [r5, List.mem_range'_1] at hi
    unfold ACCUMULATOR_MAX_SAMPLES
    omega
  · intro idx re im mag hmem
    rw [r1] at hmem
    simp only [reportLines, List.mem_cons, List.mem_append, List.mem_map, List.mem_range'_1,
      List.mem_singleton, List.not_mem_nil, or_false] at hmem
    rcases hmem with h | h | ⟨j, hj, hl⟩ | h
    · cases h
    · cases h
    · unfold cirLine at hl
      injection hl with hidx
      omega
    · cases h

/-! ## Output of an iteration (C13) -/

/-- C13 as stated fails on a good frame: the iteration for a 20-byte good frame writes
the string `FRAME RECEIVED` with `UART_puts` (line 157) besides printing the
`CIR_META`...`FRAME_END` group, so raw string output is used inside the receive loop. -/
theorem simple_rx_iteration_good_uses_puts :
    (simple_rx_iteration dw3000Config sqrtMag (goodHw 20) 62).map
        (fun r => rawOutputs r.trace) = some ["FRAME RECEIVED\r\n"]
      ∧ (simple_rx_iteration dw3000Config sqrtMag (goodHw 20) 62).map
        (fun r => lines r.trace) = some (reportLines zeroAcc sqrtMag ⟨10⟩) := by
  have h := simple_rx_iteration_good_eq dw3000Config sqrtMag (goodHw 20) 0 62
    (by decide) (by decide) (by decide) (by decide)
  obtain ⟨g1, g2, _, _⟩ := good_trace_projections dw3000Config sqrtMag (goodHw 20) 0
  rw [h]
  exact ⟨congrArg some g2, congrArg some g1⟩

/-- C13 (amended): an error iteration of the receive loop produces no output at all, no
`printf` line and no `UART_puts` string.  A good-frame iteration prints with `printf`
exactly one `CIR_META`/`FRAME_BEGIN`/`CIR`.../`FRAME_END` group and no other line, and
after the write of the frame-good bit it writes the one string `FRAME RECEIVED` with
`UART_puts`, which is the last action of the iteration. -/
theorem simple_rx_iteration_output (cfg : Config) (magnitude : Int → Int → Nat) (hw : Hw)
    (k fuel : Nat)
    (hpend : ∀ i, i < k → u32 (hw.sys_status i)
      &&& (cfg.SYS_STATUS_RXFCG_BIT_MASK ||| cfg.SYS_STATUS_ALL_RX_ERR) = 0)
    (hdone : u32 (hw.sys_status k)
      &&& (cfg.SYS_STATUS_RXFCG_BIT_MASK ||| cfg.SYS_STATUS_ALL_RX_ERR) ≠ 0)
    (hfuel : k < fuel) (hloop : 62 ≤ fuel) :
    ∃ r, simple_rx_iteration cfg magnitude hw fuel = some r
      ∧ (u32 (hw.sys_status k) &&& cfg.SYS_STATUS_RXFCG_BIT_MASK = 0 →
          lines r.trace = [] ∧ rawOutputs r.trace = [])
      ∧ (u32 (hw.sys_status k) &&& cfg.SYS_STATUS_RXFCG_BIT_MASK ≠ 0 →
          lines r.trace = reportLines hw.acc magnitude hw.diag
            ∧ rawOutputs r.trace = ["FRAME RECEIVED\r\n"]
            ∧ ∃ before, r.trace = before
                ++ [Event.write32bitreg Reg.SYS_STATUS_ID cfg.SYS_STATUS_RXFCG_BIT_MASK,
                    Event.puts "FRAME RECEIVED\r\n"]) := by
  by_cases hg : u32 (hw.sys_status k) &&& cfg.SYS_STATUS_RXFCG_BIT_MASK = 0
  · have he : u32 (hw.sys_status k) &&& cfg.SYS_STATUS_ALL_RX_ERR ≠ 0 := by
      intro he
      exact hdone ((and_or_eq_zero_iff _ _ _).2 ⟨hg, he⟩)
    obtain ⟨e1, e2, _, _⟩ := error_trace_projections cfg k
    exact ⟨_, simple_rx_iteration_error_eq cfg magnitude hw k fuel hpend hg he hfuel,
      fun _ => ⟨e1, e2⟩, fun hc => absurd hg hc⟩
  · obtain ⟨g1, g2, _, _⟩ := good_trace_projections cfg magnitude hw k
    exact ⟨_, simple_rx_iteration_good_eq cfg magnitude hw k fuel hpend hg hfuel hloop,
      fun hc => absurd hc hg, fun _ => ⟨g1, g2, _, rfl⟩⟩

/-- Witness of C13 (amended): a good frame of 20 bytes seen at the first status read. -/
theorem simple_rx_iteration_output_witness :
    ∃ r, simple_rx_iteration dw3000Config sqrtMag (goodHw 20) 62 = some r
      ∧ lines r.trace = reportLines zeroAcc sqrtMag ⟨10⟩
      ∧ rawOutputs r.trace = ["FRAME RECEIVED\r\n"] := by
  obtain ⟨r, h1, _, h3⟩ := simple_rx_iteration_output dw3000Config sqrtMag (goodHw 20) 0 62
    (by decide) (by decide) (by decide) (by decide)
  exact ⟨r, h1, (h3 (by decide)).1, (h3 (by decide)).2.1⟩

/-! ## What the decoder depends on (C14, C16) -/

/-- C14: two accumulator records that agree on bytes 1, 2, 4, 5 and on the low two bits
of bytes 3 and 6 decode to the same `(real, imag)` pair with `read_single_cir_sample`:
byte 0 and the top six bits of bytes 3 and 6 have no influence, and the same record
always decodes to the same pair. -/
theorem read_single_cir_sample_ignores_unused_bits (acc acc' : Nat → AccumData) (i j : Nat)
    (h1 : (acc i).b1 = (acc' j).b1) (h2 : (acc i).b2 = (acc' j).b2)
    (h3 : (acc i).b3.val % 4 = (acc' j).b3.val % 4)
    (h4 : (acc i).b4 = (acc' j).b4) (h5 : (acc i).b5 = (acc' j).b5)
    (h6 : (acc i).b6.val % 4 = (acc' j).b6.val % 4) :
    read_single_cir_sample acc i = read_single_cir_sample acc' j
      ∧ (acc i = acc' j → read_single_cir_sample acc i = read_single_cir_sample acc' j) := by
  have key : read_single_cir_sample acc i = read_single_cir_sample acc' j := by
    rw [read_single_cir_sample_raw18, read_single_cir_sample_raw18]
    unfold raw18
    rw [h1, h2, h3, h4, h5, h6]
  exact ⟨key, fun _ => key⟩

/-- Witness of C14: two records that differ in byte 0 and in the top six bits of bytes 3
and 6 only. -/
theorem read_single_cir_sample_ignores_unused_bits_witness :
    read_single_cir_sample (fun _ => ⟨0, 1, 2, 3, 4, 5, 2⟩) 0
      = read_single_cir_sample (fun _ => ⟨255, 1, 2, 0xFF, 4, 5, 0xA6⟩) 7 :=
  (read_single_cir_sample_ignores_unused_bits (fun _ => ⟨0, 1, 2, 3, 4, 5, 2⟩)
    (fun _ => ⟨255, 1, 2, 0xFF, 4, 5, 0xA6⟩) 0 7 rfl rfl (by decide) rfl rfl (by decide)).1

/-- C16: the 18-bit decode of `read_single_cir_sample` is a bijection between the raw
fields `[0, 262143]` and the values `[-131072, 131071]`: for every `v` in that range,
packing `v mod 262144` little-endian into bytes 1..3 (or 4..6) of any record and decoding
returns `v` as the real (or imaginary) part, and two records whose real (or imaginary)
parts decode to the same value hold the same raw field. -/
theorem read_single_cir_sample_bijective (v : Int) (hlo : -131072 ≤ v) (hhi : v ≤ 131071)
    (b : AccumData) (i : Nat) :
    (read_single_cir_sample
        (fun _ => { b with b1 := (pack18 v).1, b2 := (pack18 v).2.1, b3 := (pack18 v).2.2 })
        i).1 = v
      ∧ (read_single_cir_sample
        (fun _ => { b with b4 := (pack18 v).1, b5 := (pack18 v).2.1, b6 := (pack18 v).2.2 })
        i).2 = v
      ∧ raw18 (pack18 v).1 (pack18 v).2.1 (pack18 v).2.2 = (v % 262144).toNat
      ∧ (∀ a a' : AccumData,
          (read_single_cir_sample (fun _ => a) i).1 = (read_single_cir_sample (fun _ => a') i).1
            → raw18 a.b1 a.b2 a.b3 = raw18 a'.b1 a'.b2 a'.b3)
      ∧ (∀ a a' : AccumData,
          (read_single_cir_sample (fun _ => a) i).2 = (read_single_cir_sample (fun _ => a') i).2
            → raw18 a.b4 a.b5 a.b6 = raw18 a'.b4 a'.b5 a'.b6) := by
  refine ⟨?_, ?_, ?_, ?_, ?_⟩
  · rw [read_single_cir_sample_raw18]
    exact sx_pack v hlo hhi
  · rw [read_single_cir_sample_raw18]
    exact sx_pack v hlo hhi
  · simp only [raw18, pack18]
    omega
  · intro a a' h
    rw [read_single_cir_sample_raw18, read_single_cir_sample_raw18] at h
    exact sx_injective _ _ (raw18_lt _ _ _) (raw18_lt _ _ _) h
  · intro a a' h
    rw [read_single_cir_sample_raw18, read_single_cir_sample_raw18] at h
    exact sx_injective _ _ (raw18_lt _ _ _) (raw18_lt _ _ _) h

/-- Witness of C16 at `v = -131072`, the lowest value, packed as bytes `00 00 02`. -/
theorem read_single_cir_sample_bijective_witness :
    (-131072 : Int) ≤ -131072 ∧ (-131072 : Int) ≤ 131071
      ∧ pack18 (-131072) = (0, 0, 2)
      ∧ (read_single_cir_sample
          (fun _ => { zeroRecord with b1 := (pack18 (-131072)).1, b2 := (pack18 (-131072)).2.1,
                                      b3 := (pack18 (-131072)).2.2 }) 0).1 = -131072 :=
  ⟨by decide, by decide, by decide,
    (read_single_cir_sample_bijective (-131072) (by decide) (by decide) zeroRecord 0).1⟩

/-! ## Size of the window (C15) -/

/-- C15: for every first-path index read from the snapshot, the window computed by
`log_cir_window` contains the (possibly substituted) first-path index,
`start <= fp' <= end <= 1023`, so it is never empty, and it holds between 11 and 61
samples.  Both sizes occur: 11 at `fp = 1023`, 61 at `fp = 10`. -/
theorem log_cir_window_bounds_size (diag : dwt_rxdiag_t) :
    (log_cir_window_bounds diag).1
        = (if 1024 ≤ u16 diag.ipatovFpIndex then 0 else u16 diag.ipatovFpIndex)
      ∧ (log_cir_window_bounds diag).2.1 ≤ (log_cir_window_bounds diag).1
      ∧ (log_cir_window_bounds diag).1 ≤ (log_cir_window_bounds diag).2.2
      ∧ (log_cir_window_bounds diag).2.2 ≤ 1023
      ∧ 11 ≤ (log_cir_window_bounds diag).2.2 - (log_cir_window_bounds diag).2.1 + 1
      ∧ (log_cir_window_bounds diag).2.2 - (log_cir_window_bounds diag).2.1 + 1 ≤ 61
      ∧ log_cir_window_bounds ⟨1023⟩ = (1023, 1013, 1023)
      ∧ log_cir_window_bounds ⟨10⟩ = (10, 0, 60) := by
  obtain ⟨fp, hfp, heq, hsub⟩ := log_cir_window_bounds_cases diag
  have hb := log_cir_window_bounds_lt fp hfp
  refine ⟨?_, ?_, ?_, ?_, ?_, ?_, by decide, by decide⟩
  · rw [heq, hb]
    exact hsub
  all_goals
    rw [heq, hb]
    simp only []
    omega

end SimpleRx
